import Mathlib

/-!
# ObsidianRecursiveNotes — a shallow embedding of the export engine

This file embeds the link-graph traversal / export engine of the
ObsidianRecursiveNotes repository (`file_operations.py`, `gui_interface.py`,
`html_converter.py`) in Lean 4 and settles the specification claims about it.

Modelling conventions:

* The filesystem is a finite list of files (`FS`), each a normalized absolute
  POSIX path plus its content as a list of lines (each line keeps its trailing
  newline character, as Python's `readlines` does).  `os.walk` enumeration
  order is the list order.  `os.path.normpath`, `os.path.abspath` and
  `ensure_str_path` are the identity on this path space.
* Python strings are Lean `String`s; the Python string operations used by the
  source (`split`, `replace`, `strip`, `endswith`, substring search,
  `html.escape`, the `re.findall` calls for the fixed patterns of the source)
  are implemented below, structurally recursive so that concrete runs reduce.
* Mutable state is threaded explicitly: `WState` carries the shared
  `files_already_copied` registry, a trace of the documents whose lines are
  read by `read_files_recursive` (one entry per read, recording processing
  order), and the list of "Could not find linked file" warnings printed by
  `copy_file_to_export`.  Other prints, directory creation and the actual
  `shutil.copyfile` byte copies are I/O effects with no bearing on the claims
  and are not modelled; `export_dir` only selects copy destinations and is
  dropped for the same reason.
* The recursion `copy_file_to_export → read_files_recursive` is tied with a
  fuel parameter: every helper takes the recursive reference `recurse` as an
  argument, and `read_files_recursive fuel` instantiates it with
  `read_files_recursive (fuel-1)`.  A `none` result means the run did not
  complete (fuel exhausted — the source recursion diverges or exceeds the
  modelled depth — or an uncaught `open` failure on a document read).
-/

namespace ObsidianNotes

/-! ## Python string primitives -/

/-- Python `str.split(sep)` for a one-character separator, on char lists. -/
def splitCharAux (sep : Char) : List Char → List Char → List (List Char)
  | [], acc => [acc.reverse]
  | c :: rest, acc =>
    if c = sep then acc.reverse :: splitCharAux sep rest []
    else splitCharAux sep rest (c :: acc)

/-- Python `s.split(sep)` for the one-character separators used by the source. -/
def pySplit (sep : Char) (s : String) : List String :=
  (splitCharAux sep s.data []).map String.mk

/-- One bounded step list for Python `str.replace`: replace every
non-overlapping occurrence of `pat`, scanning left to right.  The `Nat` bound
is an artifact making the recursion structural; `pyReplace` supplies a bound
that is never reached. -/
def replaceAuxB (pat rep : List Char) : Nat → List Char → List Char
  | 0, s => s
  | _ + 1, [] => []
  | n + 1, c :: rest =>
    if pat.isPrefixOf (c :: rest) then
      rep ++ replaceAuxB pat rep n (rest.drop (pat.length - 1))
    else c :: replaceAuxB pat rep n rest

/-- Python `s.replace(pat, rep)` (all occurrences, left to right; the source
never calls it with an empty pattern). -/
def pyReplace (s pat rep : String) : String :=
  String.mk (replaceAuxB pat.data rep.data (s.data.length + 1) s.data)

/-- Python `s.startswith(pat)`. -/
def pyStartsWith (s pat : String) : Bool :=
  pat.data.isPrefixOf s.data

/-- Python `s.endswith(pat)`. -/
def pyEndsWith (s pat : String) : Bool :=
  pat.data.isSuffixOf s.data

/-- Substring containment, Python `pat in s`. -/
def containsSubAux (pat : List Char) : List Char → Bool
  | [] => pat.isPrefixOf []
  | c :: rest => pat.isPrefixOf (c :: rest) || containsSubAux pat rest

/-- Python `pat in s`. -/
def pyContains (s pat : String) : Bool :=
  containsSubAux pat.data s.data

/-- Whitespace for Python `str.strip` (the source's inputs only use these). -/
def isPySpace (c : Char) : Bool :=
  c = ' ' || c = '\t' || c = '\n' || c = '\r'

/-- Python `s.strip()`. -/
def pyStrip (s : String) : String :=
  String.mk (((s.data.dropWhile isPySpace).reverse.dropWhile isPySpace).reverse)

/-- Python `html.escape` (quote=True): `&`, `<`, `>`, `"`, `'`. -/
def escapeChar (c : Char) : List Char :=
  if c = '&' then "&amp;".data
  else if c = '<' then "&lt;".data
  else if c = '>' then "&gt;".data
  else if c = '"' then "&quot;".data
  else if c = '\'' then "&#x27;".data
  else [c]

/-- Python `html.escape(s)`. -/
def escapeHtml (s : String) : String :=
  String.mk (s.data.map escapeChar).flatten

/-! ## The regex scanners of the source

The source uses four fixed regular expressions for bracketed tokens:
`(?<!!)\[\[([^\]]*)\]\]` (document links), `!\[\[([^\]]*)\]\]` (image links),
`` `([^`]*)` `` (inline code) and `\*\*([^\*]*)\**\*` (bold, with the double
star closer).  Each is a "open delimiter, run of characters excluding the
closing character, close delimiter" scan; on a failed match the regex engine
advances one character.  The scanners below reproduce `re.findall` for these
patterns.  The `Nat` bound makes recursion structural; the wrappers pass
`length + 1`, which the scan (whose list argument strictly shrinks at every
step) never exhausts. -/

/-- Match `([^stop]*) stop stop` at the head: the capture and the remainder
after the two-character closer, or `none`. -/
def takeUntilDouble (stop : Char) : List Char → Option (List Char × List Char)
  | [] => none
  | [_] => none
  | c :: c2 :: rest =>
    if c = stop then (if c2 = stop then some ([], rest) else none)
    else (takeUntilDouble stop (c2 :: rest)).map (fun x => (c :: x.1, x.2))

/-- Match `([^stop]*) stop` at the head: the capture and the remainder after
the one-character closer, or `none`. -/
def takeUntilChar (stop : Char) : List Char → Option (List Char × List Char)
  | [] => none
  | c :: rest =>
    if c = stop then some ([], rest)
    else (takeUntilChar stop rest).map (fun x => (c :: x.1, x.2))

/-- `re.findall(r"(?<!!)\[\[([^\]]*)\]\]", line)`: captures of document links,
skipping `[[` immediately preceded by `!` (the lookbehind). -/
def scanDocLinksB : Nat → Option Char → List Char → List (List Char)
  | 0, _, _ => []
  | _ + 1, _, [] => []
  | n + 1, prev, '[' :: '[' :: rest =>
    if prev = some '!' then scanDocLinksB n (some '[') ('[' :: rest)
    else
      match takeUntilDouble ']' rest with
      | some (content, rest') => content :: scanDocLinksB n (some ']') rest'
      | none => scanDocLinksB n (some '[') ('[' :: rest)
  | n + 1, _, c :: rest => scanDocLinksB n (some c) rest

/-- Captures of `(?<!!)\[\[([^\]]*)\]\]` over a line. -/
def extractDocLinks (line : String) : List String :=
  (scanDocLinksB (line.data.length + 1) none line.data).map String.mk

/-- `re.findall(r"!\[\[([^\]]*)\]\]", line)`: captures of image links. -/
def scanImgLinksB : Nat → List Char → List (List Char)
  | 0, _ => []
  | _ + 1, [] => []
  | n + 1, '!' :: '[' :: '[' :: rest =>
    (match takeUntilDouble ']' rest with
      | some (content, rest') => content :: scanImgLinksB n rest'
      | none => scanImgLinksB n ('[' :: '[' :: rest))
  | n + 1, _ :: rest => scanImgLinksB n rest

/-- Captures of `!\[\[([^\]]*)\]\]` over a line. -/
def extractImgLinks (line : String) : List String :=
  (scanImgLinksB (line.data.length + 1) line.data).map String.mk

/-- Captures of `` `([^`]*)` `` over a line (inline code spans). -/
def scanBacktickB : Nat → List Char → List (List Char)
  | 0, _ => []
  | _ + 1, [] => []
  | n + 1, '`' :: rest =>
    (match takeUntilChar '`' rest with
      | some (content, rest') => content :: scanBacktickB n rest'
      | none => scanBacktickB n rest)
  | n + 1, _ :: rest => scanBacktickB n rest

/-- Captures of the inline-code pattern over a line. -/
def extractInlineCode (line : String) : List String :=
  (scanBacktickB (line.data.length + 1) line.data).map String.mk

/-- Captures of `\*\*([^\*]*)\*\*` over a line (bold spans). -/
def scanBoldB : Nat → List Char → List (List Char)
  | 0, _ => []
  | _ + 1, [] => []
  | n + 1, '*' :: '*' :: rest =>
    (match takeUntilDouble '*' rest with
      | some (content, rest') => content :: scanBoldB n rest'
      | none => scanBoldB n ('*' :: rest))
  | n + 1, _ :: rest => scanBoldB n rest

/-- Captures of the bold pattern over a line. -/
def extractBold (line : String) : List String :=
  (scanBoldB (line.data.length + 1) line.data).map String.mk

/-- Matches of `\[([^\]]*)\]\(([^\)]*)\)` over a line: (text, url) pairs. -/
def scanMdStyleLinksB : Nat → List Char → List (List Char × List Char)
  | 0, _ => []
  | _ + 1, [] => []
  | n + 1, '[' :: rest =>
    (match takeUntilChar ']' rest with
      | some (text, rest') =>
        (match rest' with
          | '(' :: rest'' =>
            (match takeUntilChar ')' rest'' with
              | some (url, rest3) => (text, url) :: scanMdStyleLinksB n rest3
              | none => scanMdStyleLinksB n rest)
          | _ => scanMdStyleLinksB n rest)
      | none => scanMdStyleLinksB n rest)
  | n + 1, _ :: rest => scanMdStyleLinksB n rest

/-- `re.findall` for the `[text](url)` pattern. -/
def extractMdStyleLinks (line : String) : List (String × String) :=
  (scanMdStyleLinksB (line.data.length + 1) line.data).map
    (fun x => (String.mk x.1, String.mk x.2))

/-- The run of non-whitespace characters starting a URL body. -/
def takeNonSpace (l : List Char) : List Char × List Char :=
  (l.takeWhile (fun c => !isPySpace c), l.dropWhile (fun c => !isPySpace c))

/-- Matches of `https?://[^\s]+` over a line (whole matched strings). -/
def scanUrlsB : Nat → List Char → List (List Char)
  | 0, _ => []
  | _ + 1, [] => []
  | n + 1, 'h' :: 't' :: 't' :: 'p' :: rest =>
    (match rest with
      | 's' :: ':' :: '/' :: '/' :: r =>
        (match takeNonSpace r with
          | ([], _) => scanUrlsB n rest
          | (body, r') => ("https://".data ++ body) :: scanUrlsB n r')
      | ':' :: '/' :: '/' :: r =>
        (match takeNonSpace r with
          | ([], _) => scanUrlsB n rest
          | (body, r') => ("http://".data ++ body) :: scanUrlsB n r')
      | _ => scanUrlsB n rest)
  | n + 1, _ :: rest => scanUrlsB n rest

/-- `re.findall` for bare external URLs. -/
def extractUrls (line : String) : List String :=
  (scanUrlsB (line.data.length + 1) line.data).map String.mk

/-! ## Filesystem and path model -/

/-- A file: normalized absolute path plus content as `readlines` lines. -/
structure MFile where
  path : String
  content : List String
deriving DecidableEq, Repr

/-- The filesystem: files in `os.walk` enumeration order. -/
structure FS where
  files : List MFile
deriving DecidableEq, Repr

/-- Look a path up in the filesystem. -/
def FS.lookup (fs : FS) (p : String) : Option MFile :=
  fs.files.find? (fun f => f.path == p)

/-- `os.path.exists(p)` on this file space. -/
def FS.pathExists (fs : FS) (p : String) : Bool :=
  (fs.lookup p).isSome

/-- `open(p).readlines()`: the file's lines, or `none` (`FileNotFoundError`). -/
def FS.read (fs : FS) (p : String) : Option (List String) :=
  (fs.lookup p).map (·.content)

/-- `os.path.basename` for POSIX paths. -/
def basename (p : String) : String :=
  (pySplit '/' p).getLastD ""

/-- `os.path.dirname` for POSIX paths. -/
def dirname (p : String) : String :=
  let parts := pySplit '/' p
  if parts.length ≤ 1 then ""
  else
    let head := String.intercalate "/" parts.dropLast
    if head = "" then "/" else head

/-- `os.path.join(d, f)` for a relative `f`. -/
def joinPath (d f : String) : String :=
  if d = "" then f
  else if pyEndsWith d "/" then d ++ f
  else d ++ "/" ++ f

/-- The file-resolution procedure of `copy_file_to_export` (lines 58-72 of
`file_operations.py`), also duplicated inside `count_expected_links`: first
try `original_dir/file_to_find` directly, else `os.walk(original_dir)` for the
first file whose base name equals `file_to_find` (walk order = list order;
`normpath` is the identity here). -/
def resolveFile (fs : FS) (dir name : String) : Option String :=
  let potential := joinPath dir name
  if fs.pathExists potential then some potential
  else
    (fs.files.find?
      (fun f => pyStartsWith f.path (dir ++ "/") && basename f.path == name)).map
      (·.path)

/-! ## Walker state -/

/-- The mutable state threaded through one export session:
`reg` is `files_already_copied`; `trace` records, in order, each document
whose lines `read_files_recursive` reads (one entry per read); `warns`
collects the "Could not find linked file" warnings. -/
structure WState where
  reg : List String
  trace : List String
  warns : List String
deriving DecidableEq, Repr

/-- The type of the tied-back recursive call
`read_files_recursive(path, max_depth, export_to_html=False, ...)`:
path, next depth, state in, state out (`none` = incomplete run). -/
abbrev Recurse := String → Option Int → WState → Option WState


/-- `max_depth is not None and max_depth < 0`. -/
def budgetNeg (md : Option Int) : Bool :=
  match md with | some d => decide (d < 0) | none => false

/-- `max_depth is not None and max_depth <= 0`. -/
def budgetNonpos (md : Option Int) : Bool :=
  match md with | some d => decide (d ≤ 0) | none => false

/-- `next_depth is None or next_depth >= 0`. -/
def nextDepthOk (md : Option Int) : Bool :=
  match md with | some d => decide (0 ≤ d) | none => true

/-- `max_depth is None or max_depth > 1`. -/
def shouldTraverseB (md : Option Int) : Bool :=
  match md with | none => true | some d => decide (d > 1)

/-- `max_depth is not None and current_depth >= max_depth`. -/
def depthReached (cd : Int) (md : Option Int) : Bool :=
  match md with | some m => decide (cd ≥ m) | none => false

/-! ## Link bookkeeping helpers (pure parts of `find_markdown_links` /
`find_image_links`, lines 134-176 and 200-233 of `file_operations.py`) -/

/-- `file_link.split("#")[0].split("|")[0]`. -/
def bareTarget (file_link : String) : String :=
  ((pySplit '|' ((pySplit '#' file_link).headD "")).headD "")

/-- The anchor: `"#" + file_link.split("#")[1].replace(" ", "_")
.replace("(", "").replace(")", "")` when the `#`-split has a second element,
else `""`. -/
def anchorOf (file_link : String) : String :=
  match pySplit '#' file_link with
  | _ :: second :: _ =>
    "#" ++ pyReplace (pyReplace (pyReplace second " " "_") "(" "") ")" ""
  | _ => ""

/-- The HTML anchor built when `copy_file_to_export` returned a basename
(line 173 of `file_operations.py`). -/
def foundAnchorHtml (new_file anchor : String) : String :=
  "<a href=\"./" ++ new_file ++ ".html" ++ anchor ++ "\">" ++
    pyReplace ((pySplit '/' (pyReplace new_file "\\" "/")).getLastD "") ".md" "" ++
    anchor ++ "</a>"

/-- The HTML anchor built for a self-reference or a not-found target
(line 176 of `file_operations.py`). -/
def fallbackAnchorHtml (file_only anchor : String) : String :=
  "<a href=\"./" ++ file_only ++ ".md.html" ++ anchor ++ "\">" ++
    pyReplace ((pySplit '/' (pyReplace file_only "\\" "/")).getLastD "") ".md" "" ++
    anchor ++ "</a>"

/-- The `<img>` replacement of `find_image_links` (lines 231/233). -/
def imgHtml (name : String) : String :=
  "<img src=\"./" ++ name ++ "\" alt=\"" ++ name ++ "\">"

/-! ## The walker (`file_operations.py`) -/

/-- `copy_file_to_export(file_to_find, current_file, traverse, export_dir,
files_already_copied, max_depth)` (lines 18-109).  `recurse` is the
`read_files_recursive` call of line 98 (always `export_to_html=False`).
Result: the returned basename (or `None`) and the updated state. -/
def copy_file_to_export (recurse : Recurse) (file_to_find current_file : String)
    (traverse : Bool) (fs : FS) (st : WState) (max_depth : Option Int) :
    Option (Option String × WState) :=
  -- `if max_depth is not None and max_depth < 0: return None`
  if budgetNeg max_depth then some (none, st)
  -- `if not file_to_find or file_to_find.strip() == "": return None`
  else if pyStrip file_to_find == "" then some (none, st)
  else
    let original_dir := dirname current_file
    match resolveFile fs original_dir file_to_find with
    | some linked =>
      -- `if linked_file_path not in files_already_copied: append`
      let reg1 := if st.reg.contains linked then st.reg else st.reg ++ [linked]
      let st1 := { st with reg := reg1 }
      -- `if traverse and linked not in [f for i, f in enumerate(reg) if i < len(reg) - 1]`
      if traverse && !(reg1.dropLast.contains linked) then
        let next := max_depth.map (fun d => d - 1)
        -- `if next_depth is None or next_depth >= 0`
        if nextDepthOk next then
          match recurse linked next st1 with
          | some st2 => some (some (basename linked), st2)
          | none => none
        else some (some (basename linked), st1)
      else some (some (basename linked), st1)
    | none =>
      some (none,
        { st with
          warns := st.warns ++ ["Warning: Could not find linked file: " ++ file_to_find] })

/-- The `for file_link in re.findall(...)` loop body of `find_markdown_links`
(lines 133-177), over the pre-computed capture list. -/
def processDocLinks (recurse : Recurse) (links : List String)
    (line current_file : String) (export_to_html : Bool) (fs : FS) (st : WState)
    (max_depth : Option Int) : Option (String × WState) :=
  match links with
  | [] => some (line, st)
  | file_link :: rest =>
    let file_only := bareTarget file_link
    let anchor := anchorOf file_link
    if anchor ≠ "" && file_only == "" then
      -- self-referential link: substitute the current document's name;
      -- `copy_file_to_export` is not called, `new_file` stays `None`
      let file_only := pyReplace (basename current_file) ".md" ""
      let line' :=
        if export_to_html then
          pyReplace line ("[[" ++ file_link ++ "]]") (fallbackAnchorHtml file_only anchor)
        else line
      processDocLinks recurse rest line' current_file export_to_html fs st max_depth
    else
      -- `if not file_only.endswith('.md') and file_only: file_only += '.md'`
      let file_only :=
        if !(pyEndsWith file_only ".md") && file_only ≠ "" then file_only ++ ".md"
        else file_only
      if file_only == "" then
        -- `continue`
        processDocLinks recurse rest line current_file export_to_html fs st max_depth
      else
        -- `should_traverse = max_depth is None or max_depth > 1`
        let should_traverse := shouldTraverseB max_depth
        match copy_file_to_export recurse file_only current_file should_traverse
            fs st max_depth with
        | none => none
        | some (new_file, st1) =>
          let line' :=
            if export_to_html then
              match new_file with
              | some nf =>
                if nf.length > 0 then
                  pyReplace line ("[[" ++ file_link ++ "]]") (foundAnchorHtml nf anchor)
                else
                  pyReplace line ("[[" ++ file_link ++ "]]")
                    (fallbackAnchorHtml file_only anchor)
              | none =>
                pyReplace line ("[[" ++ file_link ++ "]]")
                  (fallbackAnchorHtml file_only anchor)
            else line
          processDocLinks recurse rest line' current_file export_to_html fs st1 max_depth

/-- `find_markdown_links(line, current_file, export_to_html, export_dir,
files_already_copied, max_depth)` (lines 112-179). -/
def find_markdown_links (recurse : Recurse) (line current_file : String)
    (export_to_html : Bool) (fs : FS) (st : WState) (max_depth : Option Int) :
    Option (String × WState) :=
  -- `if max_depth is not None and max_depth <= 0: return line`
  if budgetNonpos max_depth then some (line, st)
  else
    processDocLinks recurse (extractDocLinks line) line current_file export_to_html
      fs st max_depth

/-- The `for file_link in re.findall(...)` loop body of `find_image_links`
(lines 199-235).  `copy_file_to_export` is called with `traverse=False` and
without `max_depth` (so `max_depth=None`). -/
def processImgLinks (recurse : Recurse) (links : List String)
    (line current_file : String) (export_to_html : Bool) (fs : FS) (st : WState)
    (count : Nat) : Option (String × Nat × WState) :=
  match links with
  | [] => some (line, count, st)
  | file_link :: rest =>
    let file_only := bareTarget file_link
    let anchor := anchorOf file_link
    -- `if not file_only: continue`  (this guard precedes the self-reference
    -- branch below, which is therefore unreachable)
    if file_only == "" then
      processImgLinks recurse rest line current_file export_to_html fs st count
    else
      if anchor ≠ "" && file_only == "" then
        -- dead branch, kept to mirror lines 213-214
        let file_only := pyReplace (basename current_file) ".md" ""
        let line' :=
          if export_to_html then
            pyReplace line ("![[" ++ file_link ++ "]]") (imgHtml file_only)
          else line
        processImgLinks recurse rest line' current_file export_to_html fs st (count + 1)
      else
        match copy_file_to_export recurse file_only current_file false fs st none with
        | none => none
        | some (new_file, st1) =>
          let line' :=
            if export_to_html then
              match new_file with
              | some nf =>
                if nf.length > 0 then
                  pyReplace line ("![[" ++ file_link ++ "]]") (imgHtml nf)
                else pyReplace line ("![[" ++ file_link ++ "]]") (imgHtml file_only)
              | none =>
                pyReplace line ("![[" ++ file_link ++ "]]") (imgHtml file_only)
            else line
          processImgLinks recurse rest line' current_file export_to_html fs st1 (count + 1)

/-- `find_image_links(line, current_file, export_to_html, export_dir,
files_already_copied)` (lines 182-237). -/
def find_image_links (recurse : Recurse) (line current_file : String)
    (export_to_html : Bool) (fs : FS) (st : WState) :
    Option (String × Nat × WState) :=
  processImgLinks recurse (extractImgLinks line) line current_file export_to_html
    fs st 0

/-! ## `html_converter.py` -/

/-- `convert_inline_code(line)` (lines 13-26 of `html_converter.py`). -/
def convert_inline_code (line : String) : String :=
  (extractInlineCode line).foldl
    (fun l code =>
      pyReplace l ("`" ++ code ++ "`") ("<code>" ++ escapeHtml code ++ "</code>"))
    line

/-- `convert_code_block(line, in_code_block)` (lines 29-47). -/
def convert_code_block (line : String) (in_code_block : Bool) : String × Bool :=
  if pyContains line "```" then
    if in_code_block then (pyReplace line "```" "</code></pre>", false)
    else (pyReplace line "```" "<pre><code>", true)
  else (line, in_code_block)

/-- `convert_comment_block(line, in_comment)` (lines 50-68). -/
def convert_comment_block (line : String) (in_comment : Bool) : String × Bool :=
  if pyContains line "%%" then
    if in_comment then (pyReplace line "%%" "-->", false)
    else (pyReplace line "%%" "<!--", true)
  else (line, in_comment)

/-- `convert_horizontal_rule(line)` (lines 71-83). -/
def convert_horizontal_rule (line : String) : String :=
  if pyStartsWith line "---" then "<hr>" else line

/-- `convert_link_in_text(line)` (lines 86-99). -/
def convert_link_in_text (line : String) : String :=
  (extractMdStyleLinks line).foldl
    (fun l tu =>
      pyReplace l ("[" ++ tu.1 ++ "](" ++ tu.2 ++ ")")
        ("<a href=\"" ++ tu.2 ++ "\">" ++ tu.1 ++ "</a>"))
    line

/-- `convert_external_links(line)` (lines 102-115). -/
def convert_external_links (line : String) : String :=
  (extractUrls line).foldl
    (fun l url => pyReplace l url ("<a href=\"" ++ url ++ "\">" ++ url ++ "</a>"))
    line

/-- `convert_checkboxes(line)` (lines 118-138): the findall/replace loops
amount to one global replace per marker. -/
def convert_checkboxes (line : String) : String :=
  pyReplace (pyReplace line "- [ ]" "<input type=\"checkbox\">")
    "- [x]" "<input type=\"checkbox\" checked>"

/-- `convert_bold_text(line)` (lines 141-154). -/
def convert_bold_text (line : String) : String :=
  (extractBold line).foldl
    (fun l text =>
      pyReplace l ("**" ++ text ++ "**") ("<strong>" ++ text ++ "</strong>"))
    line

/-- `convert_headings(line)` (lines 157-172): regex `^#+ (.*)`, with
`level = len(line.split(" ")[0])` and an in-place replace. -/
def convert_headings (line : String) : String :=
  let cs := line.data
  let hashes := cs.takeWhile (· = '#')
  if hashes.length > 0 && (cs.drop hashes.length).headD ' ' = ' ' &&
      (cs.drop hashes.length) ≠ [] then
    let text := String.mk ((cs.drop (hashes.length + 1)).takeWhile (· ≠ '\n'))
    let level := ((pySplit ' ' line).headD "").length
    pyReplace line (String.mk (List.replicate level '#') ++ " " ++ text)
      ("<h" ++ toString level ++ ">" ++ text ++ "</h" ++ toString level ++ ">")
  else line

/-- `convert_list_items(line)` (lines 175-187). -/
def convert_list_items (line : String) : String :=
  if pyStartsWith line "- " then pyReplace line "- " "<li>" ++ "</li>"
  else line

/-- `insert_paragraphs(line)` (lines 190-202). -/
def insert_paragraphs (line : String) : String :=
  if pyStrip line == "" then "<p>" else line

/-! ## `read_files_recursive` and `process_file_to_html` -/

/-- The per-line loop of `process_file_to_html` (lines 324-375 of
`file_operations.py`), producing the written body lines and the final state.
`out` accumulates `output_file.write(line)` calls (head/footer wrappers,
which contain no processed content, are not modelled). -/
def htmlLoop (recurse : Recurse) (lines : List String) (path : String) (fs : FS)
    (st : WState) (max_depth : Option Int) (in_code_block in_comment : Bool)
    (out : List String) : Option (List String × WState) :=
  match lines with
  | [] => some (out, st)
  | line :: rest =>
    let line := if !in_code_block then convert_inline_code line else line
    let cb := convert_code_block line in_code_block
    let line := cb.1
    let in_code_block' := cb.2
    if !in_code_block' then
      if in_comment then
        let cm := convert_comment_block line in_comment
        -- `line = ''` and fall through to the write
        htmlLoop recurse rest path fs st max_depth in_code_block' cm.2 (out ++ [""])
      else
        let cm := convert_comment_block line in_comment
        let line := cm.1
        let in_comment' := cm.2
        if in_comment' then
          -- `continue`: nothing is written for this line
          htmlLoop recurse rest path fs st max_depth in_code_block' in_comment' out
        else
          let line := convert_horizontal_rule line
          match find_markdown_links recurse line path true fs st max_depth with
          | none => none
          | some (line, st1) =>
            match find_image_links recurse line path true fs st1 with
            | none => none
            | some (line, _cnt, st2) =>
              let line := convert_inline_code line
              let line := convert_link_in_text line
              let line := convert_external_links line
              let line := convert_checkboxes line
              let line := convert_bold_text line
              let line := convert_headings line
              let line := convert_list_items line
              let line := insert_paragraphs line
              htmlLoop recurse rest path fs st2 max_depth in_code_block' in_comment'
                (out ++ [line])
    else
      -- `elif "<code" not in line: line = html.escape(line)`
      let line := if !(pyContains line "<code") then escapeHtml line else line
      htmlLoop recurse rest path fs st max_depth in_code_block' in_comment
        (out ++ [line])

/-- `process_file_to_html(path, data, export_dir, files_already_copied,
max_depth, assets_count)` (lines 302-381): the content loop, started with both
block states off. -/
def process_file_to_html (recurse : Recurse) (path : String) (data : List String)
    (fs : FS) (st : WState) (max_depth : Option Int) :
    Option (List String × WState) :=
  htmlLoop recurse data path fs st max_depth false false []

/-- The non-HTML per-line loop of `read_files_recursive` (lines 282-297);
in this mode both passes run with `export_to_html=False` (`find_image_links`
is called without the flag, so it defaults to `False`).  The processed lines
are discarded by the source; only the state and the image count survive. -/
def walkLines (recurse : Recurse) (lines : List String) (path : String) (fs : FS)
    (st : WState) (max_depth : Option Int) (acc : Nat) : Option (Nat × WState) :=
  match lines with
  | [] => some (acc, st)
  | line :: rest =>
    match find_markdown_links recurse line path false fs st max_depth with
    | none => none
    | some (_, st1) =>
      match find_image_links recurse line path false fs st1 with
      | none => none
      | some (_, image_count, st2) =>
        walkLines recurse rest path fs st2 max_depth (acc + image_count)

/-- `read_files_recursive(path, max_depth, export_to_html, export_dir,
files_already_copied)` (lines 240-299).  The fuel bounds the depth of the
`copy_file_to_export → read_files_recursive` back edge; `none` means the run
did not complete within the fuel (or a document read failed).  Note the
source never appends `path` itself to the registry here — only linked files
are registered, by `copy_file_to_export`. -/
def read_files_recursive : Nat → FS → String → Option Int → Bool → WState →
    Option WState
  | 0, _, _, _, _, _ => none
  | fuel + 1, fs, path, max_depth, export_to_html, st =>
    -- `if max_depth is not None and max_depth < 0: return`
    if budgetNeg max_depth then some st
    else
      match fs.read path with
      | none => none
      | some data =>
        let st := { st with trace := st.trace ++ [path] }
        let recurse : Recurse := fun p md st' =>
          read_files_recursive fuel fs p md false st'
        if export_to_html then
          match process_file_to_html recurse path data fs st max_depth with
          | none => none
          | some (_, st') => some st'
        else
          match walkLines recurse data path fs st max_depth 0 with
          | none => none
          | some (_, st') => some st'

/-- The export session of `run_export` (`gui_interface.py`, lines 253-268):
the registry is seeded with the resolved root (`files_copied =
[ensure_str_path(file_to_export)]`) before `read_files_recursive` runs. -/
def run_export (fuel : Nat) (fs : FS) (root : String) (export_to_html : Bool)
    (max_depth : Option Int) : Option WState :=
  read_files_recursive fuel fs root max_depth export_to_html
    { reg := [root], trace := [], warns := [] }

/-! ## `count_expected_links` (`gui_interface.py`, lines 79-203) -/

/-- The image-link loop of `count_expected_links` (lines 170-199): resolve
each image capture; a found, unvisited target is added to `visited` and
counted.  No recursion. -/
def countImgLoop (fs : FS) (file_path : String) :
    List String → List String → Nat → Nat × List String
  | [], visited, count => (count, visited)
  | m :: rest, visited, count =>
    let file_only := bareTarget m
    if file_only == "" then countImgLoop fs file_path rest visited count
    else
      match resolveFile fs (dirname file_path) file_only with
      | some linked =>
        if !(visited.contains linked) then
          countImgLoop fs file_path rest (visited ++ [linked]) (count + 1)
        else countImgLoop fs file_path rest visited count
      | none => countImgLoop fs file_path rest visited count

/-- The document-link loop of `count_expected_links` (lines 126-167):
`recurseC` is the recursive `count_expected_links` call at
`current_depth + 1`. -/
def countMdLoop (recurseC : String → List String → Int → Option (Nat × List String))
    (fs : FS) (file_path : String) :
    List String → List String → Nat → Int → Option (Nat × List String)
  | [], visited, count, _ => some (count, visited)
  | m :: rest, visited, count, current_depth =>
    let file_only := bareTarget m
    let file_only :=
      if !(pyEndsWith file_only ".md") && file_only ≠ "" then file_only ++ ".md"
      else file_only
    if file_only == "" then countMdLoop recurseC fs file_path rest visited count current_depth
    else
      match resolveFile fs (dirname file_path) file_only with
      | some linked =>
        if !(visited.contains linked) then
          match recurseC linked visited (current_depth + 1) with
          | none => none
          | some (sub, visited') =>
            countMdLoop recurseC fs file_path rest visited' (count + sub) current_depth
        else countMdLoop recurseC fs file_path rest visited count current_depth
      | none => countMdLoop recurseC fs file_path rest visited count current_depth

/-- `count_expected_links(file_path, visited, current_depth, max_depth)`.
The Python `visited` set is modelled as a duplicate-free list (membership and
size are all the source uses).  A missing file raises inside the `try`, which
is caught: the already-incremented `count` and `visited` are returned.
The fuel bounds recursion depth as in the walker. -/
def count_expected_links : Nat → FS → String → List String → Int → Option Int →
    Option (Nat × List String)
  | 0, _, _, _, _, _ => none
  | fuel + 1, fs, file_path, visited, current_depth, max_depth =>
    -- `if file_path in visited: return 0, visited`
    if visited.contains file_path then some (0, visited)
    else
      let visited := visited ++ [file_path]
      -- `count = 1`
      -- `if max_depth is not None and current_depth >= max_depth: return`
      if depthReached current_depth max_depth then
        some (1, visited)
      else
        match fs.read file_path with
        | none => some (1, visited)
        | some lines =>
          let content := String.join lines
          match countMdLoop
              (fun p v c => count_expected_links fuel fs p v c max_depth)
              fs file_path (extractDocLinks content) visited 1 current_depth with
          | none => none
          | some (count, visited) =>
            some (countImgLoop fs file_path (extractImgLinks content) visited count)

/-! ## Concrete document graphs used by the claims -/

/-- A root document whose only link is a document link to itself. -/
def fsSelf : FS := ⟨[⟨"/v/root.md", ["[[root]]\n"]⟩]⟩

/-- A root document whose only link is an image link to an existing asset. -/
def fsImg : FS := ⟨[⟨"/v/root.md", ["![[img.png]]\n"]⟩, ⟨"/v/img.png", ["PNG\n"]⟩]⟩

/-- `main.md` links to `linked.md`, whose own link leads further. -/
def fsDepth : FS :=
  ⟨[⟨"/v/main.md", ["[[linked]]\n"]⟩,
    ⟨"/v/linked.md", ["[[other]]\n"]⟩,
    ⟨"/v/other.md", ["x\n"]⟩]⟩

/-- The monotonicity graph: `R → B1, C`; `B1 → B2`; `B2 → C`; `C → E`;
`E → F`. -/
def fsMono : FS :=
  ⟨[⟨"/v/R.md", ["[[B1]]\n", "[[C]]\n"]⟩,
    ⟨"/v/B1.md", ["[[B2]]\n"]⟩,
    ⟨"/v/B2.md", ["[[C]]\n"]⟩,
    ⟨"/v/C.md", ["[[E]]\n"]⟩,
    ⟨"/v/E.md", ["[[F]]\n"]⟩,
    ⟨"/v/F.md", ["x\n"]⟩]⟩

/-- A document consisting of a fenced code block around a bold line. -/
def fsCode : FS := ⟨[⟨"/v/doc.md", ["```\n", "**bold**\n", "```\n"]⟩]⟩

/-- The code-block document's lines. -/
def codeLines : List String := ["```\n", "**bold**\n", "```\n"]

/-- `main.md` holds one resolvable document link. -/
def fsOneLink : FS := ⟨[⟨"/v/main.md", ["[[a]]\n"]⟩, ⟨"/v/a.md", ["x\n"]⟩]⟩

/-- A lone document, used for the image-self-reference claim. -/
def fsCur : FS := ⟨[⟨"/v/cur.md", ["x\n"]⟩]⟩

/-- The empty walker state. -/
def st0 : WState := ⟨[], [], []⟩

/-- Count of non-overlapping occurrences of `pat`, scanning left to right
(bounded like `replaceAuxB`). -/
def countSubB (pat : List Char) : Nat → List Char → Nat
  | 0, _ => 0
  | _ + 1, [] => 0
  | n + 1, c :: rest =>
    if pat.isPrefixOf (c :: rest) then 1 + countSubB pat n (rest.drop (pat.length - 1))
    else countSubB pat n rest

/-- Number of occurrences of `pat` in `s`. -/
def countSub (s pat : String) : Nat :=
  countSubB pat.data (s.data.length + 1) s.data

/-- A recursive reference preserves freedom from registry duplicates. -/
def PreservesNodup (recurse : Recurse) : Prop :=
  ∀ p md st st', st.reg.Nodup → recurse p md st = some st' → st'.reg.Nodup

/-- The conditional extension append of `find_markdown_links` (lines 147-148
of `file_operations.py`): `if not file_only.endswith('.md') and file_only:
file_only = file_only + '.md'`. -/
def mdTargetName (name : String) : String :=
  if !(pyEndsWith name ".md") && name ≠ "" then name ++ ".md" else name

/-! ## Shared lemmas -/

theorem mem_of_contains_eq_true {l : List String} {a : String}
    (h : l.contains a = true) : a ∈ l := by
  simpa [List.contains] using List.elem_iff.mp (by simpa [List.contains] using h)

theorem not_mem_of_contains_eq_false {l : List String} {a : String}
    (h : l.contains a = false) : a ∉ l := by
  intro hm
  have : l.contains a = true := by simpa [List.contains] using List.elem_iff.mpr hm
  rw [this] at h
  cases h

theorem nodup_guarded_append {l : List String} {a : String} (h : l.Nodup) :
    (if l.contains a then l else l ++ [a]).Nodup := by
  split
  · exact h
  · next hc =>
    have ha : a ∉ l := not_mem_of_contains_eq_false (by
      cases hcontains : l.contains a
      · rfl
      · exact absurd hcontains hc)
    simp [List.nodup_append, h, ha]

theorem pathExists_spec {fs : FS} {p : String} (h : fs.pathExists p = true) :
    ∃ f ∈ fs.files, f.path = p := by
  unfold FS.pathExists FS.lookup at h
  rw [Option.isSome_iff_exists] at h
  obtain ⟨f, hf⟩ := h
  refine ⟨f, List.mem_of_find?_eq_some hf, ?_⟩
  have := List.find?_some hf
  exact eq_of_beq (by simpa using this)

/-- If no file's base name is `name` and the directly probed path also has
base name `name`, resolution fails. -/
theorem resolveFile_eq_none {fs : FS} {dir name : String}
    (h : ∀ f ∈ fs.files, basename f.path ≠ name)
    (hb : basename (joinPath dir name) = name) :
    resolveFile fs dir name = none := by
  unfold resolveFile
  have hex : fs.pathExists (joinPath dir name) = false := by
    cases hx : fs.pathExists (joinPath dir name)
    · rfl
    · obtain ⟨f, hf, hfp⟩ := pathExists_spec hx
      exact absurd (hfp ▸ hb) (h f hf)
  simp only
  rw [hex]
  have : fs.files.find?
      (fun f => pyStartsWith f.path (dir ++ "/") && basename f.path == name) = none := by
    rw [List.find?_eq_none]
    intro f hf hp
    rw [Bool.and_eq_true] at hp
    exact h f hf (eq_of_beq hp.2)
  simp [this]

/-- `find_markdown_links` returns immediately when the bounded budget is
non-positive (line 129 of `file_operations.py`). -/
theorem find_md_nonpos (recurse : Recurse) (line cur : String) (html : Bool)
    (fs : FS) (st : WState) (d : Int) (h : d ≤ 0) :
    find_markdown_links recurse line cur html fs st (some d) = some (line, st) := by
  simp [find_markdown_links, budgetNonpos, h]

/-- At budget `0`, the non-HTML per-line loop is inert on lines without image
links: the document-link pass skips, the image pass finds nothing. -/
theorem walkLines_budget0 (recurse : Recurse) :
    ∀ (lines : List String) (path : String) (fs : FS) (st : WState) (acc : Nat),
      (∀ l ∈ lines, extractImgLinks l = []) →
      walkLines recurse lines path fs st (some 0) acc = some (acc, st) := by
  intro lines
  induction lines with
  | nil => intro path fs st acc _; rfl
  | cons l rest ih =>
    intro path fs st acc h
    have himg : find_image_links recurse l path false fs st = some (l, 0, st) := by
      unfold find_image_links
      rw [h l (List.mem_cons_self l rest)]
      rfl
    unfold walkLines
    rw [find_md_nonpos recurse l path false fs st 0 le_rfl]
    show (match find_image_links recurse l path false fs st with
      | none => none
      | some (_, image_count, st2) =>
        walkLines recurse rest path fs st2 (some 0) (acc + image_count)) = some (acc, st)
    rw [himg]
    simpa using ih path fs st (acc + 0) (fun x hx => h x (List.mem_cons_of_mem l hx))

/-! ## The self-link cycle: `fsSelf` with unbounded depth never terminates

`/v/root.md` links to itself.  With the registry holding exactly the root,
`copy_file_to_export` does not append (already registered), but the
"all but the last entry" slice (line 91 of `file_operations.py`) is empty, so
the guard passes and the walker re-enters the root with the same registry —
forever.  The lemmas follow one call layer each. -/

theorem copySelf (recurse : Recurse) (tr w : List String) :
    copy_file_to_export recurse "root.md" "/v/root.md" true fsSelf
      ⟨["/v/root.md"], tr, w⟩ none =
    (match recurse "/v/root.md" none ⟨["/v/root.md"], tr, w⟩ with
      | some st2 => some (some "root.md", st2)
      | none => none) := rfl

theorem processDocSelf (recurse : Recurse) (tr w : List String) :
    processDocLinks recurse ["root"] "[[root]]\n" "/v/root.md" false fsSelf
      ⟨["/v/root.md"], tr, w⟩ none =
    (match recurse "/v/root.md" none ⟨["/v/root.md"], tr, w⟩ with
      | some st2 => some ("[[root]]\n", st2)
      | none => none) := by
  have e : processDocLinks recurse ["root"] "[[root]]\n" "/v/root.md" false fsSelf
      ⟨["/v/root.md"], tr, w⟩ none =
      (match copy_file_to_export recurse "root.md" "/v/root.md" true fsSelf
          ⟨["/v/root.md"], tr, w⟩ none with
        | none => none
        | some (_, st1) => some ("[[root]]\n", st1)) := rfl
  rw [e, copySelf]
  cases recurse "/v/root.md" none ⟨["/v/root.md"], tr, w⟩ <;> rfl

theorem walkSelf (recurse : Recurse) (tr w : List String) :
    walkLines recurse ["[[root]]\n"] "/v/root.md" fsSelf
      ⟨["/v/root.md"], tr, w⟩ none 0 =
    (match recurse "/v/root.md" none ⟨["/v/root.md"], tr, w⟩ with
      | some st2 => some (0, st2)
      | none => none) := by
  have e : walkLines recurse ["[[root]]\n"] "/v/root.md" fsSelf
      ⟨["/v/root.md"], tr, w⟩ none 0 =
      (match processDocLinks recurse ["root"] "[[root]]\n" "/v/root.md" false fsSelf
          ⟨["/v/root.md"], tr, w⟩ none with
        | none => none
        | some (_, st1) => some (0, st1)) := rfl
  rw [e, processDocSelf]
  cases recurse "/v/root.md" none ⟨["/v/root.md"], tr, w⟩ <;> rfl

theorem readSelfStep (fuel : Nat) (tr w : List String) :
    read_files_recursive (fuel + 1) fsSelf "/v/root.md" none false
      ⟨["/v/root.md"], tr, w⟩ =
    (match read_files_recursive fuel fsSelf "/v/root.md" none false
        ⟨["/v/root.md"], tr ++ ["/v/root.md"], w⟩ with
      | some st2 => some st2
      | none => none) := by
  have e : read_files_recursive (fuel + 1) fsSelf "/v/root.md" none false
      ⟨["/v/root.md"], tr, w⟩ =
      (match walkLines (fun p md st' => read_files_recursive fuel fsSelf p md false st')
          ["[[root]]\n"] "/v/root.md" fsSelf
          ⟨["/v/root.md"], tr ++ ["/v/root.md"], w⟩ none 0 with
        | none => none
        | some (_, st') => some st') := rfl
  rw [e, walkSelf]
  cases read_files_recursive fuel fsSelf "/v/root.md" none false
    ⟨["/v/root.md"], tr ++ ["/v/root.md"], w⟩ <;> rfl

/-- The self-link session never completes, at any fuel. -/
theorem selfDiverges :
    ∀ (fuel : Nat) (tr w : List String),
      read_files_recursive fuel fsSelf "/v/root.md" none false
        ⟨["/v/root.md"], tr, w⟩ = none := by
  intro fuel
  induction fuel with
  | zero => intro tr w; rfl
  | succ n ih =>
    intro tr w
    rw [readSelfStep, ih]

/-! ## Registry deduplication: every append is membership-guarded -/

theorem nodup_append_not_contains {l : List String} {a : String} (h : l.Nodup)
    (hc : ¬ l.contains a = true) : (l ++ [a]).Nodup := by
  have ha : a ∉ l := not_mem_of_contains_eq_false (by
    cases hx : l.contains a
    · rfl
    · exact absurd hx hc)
  simp [List.nodup_append, h, ha]

theorem copy_preserves {recurse : Recurse} (hr : PreservesNodup recurse)
    {f c : String} {tr : Bool} {fs : FS} {st : WState} {md : Option Int}
    {res : Option String} {st' : WState} (hnd : st.reg.Nodup)
    (h : copy_file_to_export recurse f c tr fs st md = some (res, st')) :
    st'.reg.Nodup := by
  unfold copy_file_to_export at h
  repeat' (first | split at h | simp only [] at h)
  all_goals
    first
      | exact Option.noConfusion h
      | (simp only [Option.some.injEq, Prod.mk.injEq] at h
         obtain ⟨-, h2⟩ := h
         subst h2
         first
           | exact hnd
           | exact nodup_append_not_contains hnd (by assumption)
           | exact hr _ _ _ _ hnd (by assumption)
           | exact hr _ _ _ _ (nodup_append_not_contains hnd (by assumption))
               (by assumption))

theorem processDoc_preserves {recurse : Recurse} (hr : PreservesNodup recurse) :
    ∀ (links : List String) (line cur : String) (html : Bool) (fs : FS)
      (st : WState) (md : Option Int) (l' : String) (st' : WState),
      st.reg.Nodup →
      processDocLinks recurse links line cur html fs st md = some (l', st') →
      st'.reg.Nodup := by
  intro links
  induction links with
  | nil =>
    intro line cur html fs st md l' st' hnd h
    simp only [processDocLinks, Option.some.injEq, Prod.mk.injEq] at h
    exact h.2 ▸ hnd
  | cons k rest ih =>
    intro line cur html fs st md l' st' hnd h
    unfold processDocLinks at h
    repeat' (first | split at h | simp only [] at h)
    all_goals
      first
        | exact Option.noConfusion h
        | exact ih _ _ _ _ _ _ _ _ hnd h
        | exact ih _ _ _ _ _ _ _ _ (copy_preserves hr hnd (by assumption)) h


theorem processImg_preserves {recurse : Recurse} (hr : PreservesNodup recurse) :
    ∀ (links : List String) (line cur : String) (html : Bool) (fs : FS)
      (st : WState) (cnt : Nat) (l' : String) (n' : Nat) (st' : WState),
      st.reg.Nodup →
      processImgLinks recurse links line cur html fs st cnt = some (l', n', st') →
      st'.reg.Nodup := by
  intro links
  induction links with
  | nil =>
    intro line cur html fs st cnt l' n' st' hnd h
    simp only [processImgLinks, Option.some.injEq, Prod.mk.injEq] at h
    exact h.2.2 ▸ hnd
  | cons k rest ih =>
    intro line cur html fs st cnt l' n' st' hnd h
    unfold processImgLinks at h
    repeat' (first | split at h | simp only [] at h)
    all_goals
      first
        | exact Option.noConfusion h
        | exact ih _ _ _ _ _ _ _ _ _ hnd h
        | exact ih _ _ _ _ _ _ _ _ _ (copy_preserves hr hnd (by assumption)) h


theorem find_md_preserves {recurse : Recurse} (hr : PreservesNodup recurse)
    {line cur : String} {html : Bool} {fs : FS} {st : WState} {md : Option Int}
    {l' : String} {st' : WState} (hnd : st.reg.Nodup)
    (h : find_markdown_links recurse line cur html fs st md = some (l', st')) :
    st'.reg.Nodup := by
  unfold find_markdown_links at h
  split at h
  · simp only [Option.some.injEq, Prod.mk.injEq] at h
    exact h.2 ▸ hnd
  · exact processDoc_preserves hr _ _ _ _ _ _ _ _ _ hnd h

theorem find_img_preserves {recurse : Recurse} (hr : PreservesNodup recurse)
    {line cur : String} {html : Bool} {fs : FS} {st : WState}
    {l' : String} {n' : Nat} {st' : WState} (hnd : st.reg.Nodup)
    (h : find_image_links recurse line cur html fs st = some (l', n', st')) :
    st'.reg.Nodup :=
  processImg_preserves hr _ _ _ _ _ _ _ _ _ _ hnd h

theorem walkLines_preserves {recurse : Recurse} (hr : PreservesNodup recurse) :
    ∀ (lines : List String) (path : String) (fs : FS) (st : WState)
      (md : Option Int) (acc n' : Nat) (st' : WState),
      st.reg.Nodup →
      walkLines recurse lines path fs st md acc = some (n', st') →
      st'.reg.Nodup := by
  intro lines
  induction lines with
  | nil =>
    intro path fs st md acc n' st' hnd h
    simp only [walkLines, Option.some.injEq, Prod.mk.injEq] at h
    exact h.2 ▸ hnd
  | cons l rest ih =>
    intro path fs st md acc n' st' hnd h
    unfold walkLines at h
    repeat' (first | split at h | simp only [] at h)
    all_goals
      first
        | exact Option.noConfusion h
        | exact ih _ _ _ _ _ _ _
            (find_img_preserves hr (find_md_preserves hr hnd (by assumption))
              (by assumption)) h


theorem htmlLoop_preserves {recurse : Recurse} (hr : PreservesNodup recurse) :
    ∀ (lines : List String) (path : String) (fs : FS) (st : WState)
      (md : Option Int) (icb icm : Bool) (out out' : List String) (st' : WState),
      st.reg.Nodup →
      htmlLoop recurse lines path fs st md icb icm out = some (out', st') →
      st'.reg.Nodup := by
  intro lines
  induction lines with
  | nil =>
    intro path fs st md icb icm out out' st' hnd h
    simp only [htmlLoop, Option.some.injEq, Prod.mk.injEq] at h
    exact h.2 ▸ hnd
  | cons l rest ih =>
    intro path fs st md icb icm out out' st' hnd h
    unfold htmlLoop at h
    repeat' (first | split at h | simp only [] at h)
    all_goals
      first
        | exact Option.noConfusion h
        | exact ih _ _ _ _ _ _ _ _ _ hnd h
        | exact ih _ _ _ _ _ _ _ _ _ hnd h.symm
        | exact ih _ _ _ _ _ _ _ _ _
            (find_img_preserves hr (find_md_preserves hr hnd (by assumption))
              (by assumption)) h


theorem processHtml_preserves {recurse : Recurse} (hr : PreservesNodup recurse)
    {path : String} {data : List String} {fs : FS} {st : WState}
    {md : Option Int} {out' : List String} {st' : WState} (hnd : st.reg.Nodup)
    (h : process_file_to_html recurse path data fs st md = some (out', st')) :
    st'.reg.Nodup := by
  unfold process_file_to_html at h
  exact htmlLoop_preserves hr _ _ _ _ _ _ _ _ _ _ hnd h

theorem read_preserves :
    ∀ (fuel : Nat) (fs : FS) (path : String) (md : Option Int) (html : Bool)
      (st st' : WState),
      st.reg.Nodup →
      read_files_recursive fuel fs path md html st = some st' →
      st'.reg.Nodup := by
  intro fuel
  induction fuel with
  | zero => intro fs path md html st st' _ h; cases h
  | succ n ih =>
    intro fs path md html st st' hnd h
    have hrec : PreservesNodup
        (fun p md' st'' => read_files_recursive n fs p md' false st'') :=
      fun p md' a b hn hh => ih fs p md' false a b hn hh
    unfold read_files_recursive at h
    split at h
    next =>
      simp only [Option.some.injEq] at h
      subst h
      exact hnd
    next =>
      split at h
      next => exact Option.noConfusion h
      next data hdata =>
        simp only [] at h
        split at h
        next =>
          split at h
          next => exact Option.noConfusion h
          next out stx hout =>
            simp only [Option.some.injEq] at h
            subst h
            exact processHtml_preserves hrec (by exact hnd) hout
        next =>
          split at h
          next => exact Option.noConfusion h
          next k stx hwalk =>
            simp only [Option.some.injEq] at h
            subst h
            exact walkLines_preserves hrec _ _ _ _ _ _ _ _ (by exact hnd) hwalk

/-! ## Generic capture of a single image link -/

theorem takeUntilDouble_append (stop : Char) :
    ∀ (cs r : List Char), (∀ c ∈ cs, c ≠ stop) →
      takeUntilDouble stop (cs ++ stop :: stop :: r) = some (cs, r) := by
  intro cs
  induction cs with
  | nil => intro r _; simp [takeUntilDouble]
  | cons c cs ih =>
    intro r h
    have hc : c ≠ stop := h c (List.mem_cons_self c cs)
    cases cs with
    | nil =>
      simp [takeUntilDouble, hc]
    | cons c2 cs2 =>
      have hrest := ih r (fun x hx => h x (List.mem_cons_of_mem c hx))
      simp only [List.cons_append] at hrest ⊢
      rw [takeUntilDouble, if_neg hc, hrest]
      rfl

theorem scanImg_nil_tail : ∀ n : Nat, scanImgLinksB n ['\n'] = [] := by
  intro n
  match n with
  | 0 => rfl
  | 1 => rfl
  | n + 2 => rfl

theorem scanImg_single (n : Nat) (a : List Char) (h : ']' ∉ a) :
    scanImgLinksB (n + 1) ('!' :: '[' :: '[' :: ('#' :: a ++ [']', ']', '\n'])) =
      ['#' :: a] := by
  have hcap : takeUntilDouble ']' (('#' :: a) ++ ']' :: ']' :: ['\n']) =
      some ('#' :: a, ['\n']) := by
    apply takeUntilDouble_append
    intro c hc
    rcases List.mem_cons.mp hc with h1 | h2
    · subst h1; decide
    · exact fun he => h (he ▸ h2)
  rw [scanImgLinksB]
  simp only [List.cons_append] at hcap ⊢
  rw [hcap]
  show ('#' :: a) :: scanImgLinksB n ['\n'] = ['#' :: a]
  rw [scanImg_nil_tail]

theorem extractImg_single (a : List Char) (h : ']' ∉ a) :
    extractImgLinks (String.mk ('!' :: '[' :: '[' :: ('#' :: a ++ [']', ']', '\n']))) =
      [String.mk ('#' :: a)] := by
  unfold extractImgLinks
  have hlen : (String.mk ('!' :: '[' :: '[' :: ('#' :: a ++ [']', ']', '\n']))).data.length + 1 =
      (a.length + 7) + 1 := by
    simp [List.length_append]
  rw [hlen, scanImg_single _ a h]
  rfl

/-! ## Replacing the whole-line link token

`find_markdown_links` rewrites the line with
`line.replace("[[" + file_link + "]]", html_link)`; for a line that is exactly
the token followed by a newline the replacement is the anchor followed by the
newline. -/

theorem isPrefixOf_append_self (l r : List Char) : l.isPrefixOf (l ++ r) = true := by
  induction l with
  | nil => simp [List.isPrefixOf]
  | cons a as ih => simp [List.isPrefixOf, ih]

theorem replaceAuxB_nil_input (pat rep : List Char) (b : Nat) :
    replaceAuxB pat rep b [] = [] := by
  cases b <;> rfl

theorem replaceAuxB_bracket_nl (pat' rep : List Char) (b : Nat) :
    replaceAuxB ('[' :: pat') rep b ['\n'] = ['\n'] := by
  cases b with
  | zero => rfl
  | succ b' =>
    have hpre : (('[' :: pat').isPrefixOf ['\n']) = false := by
      simp [List.isPrefixOf]
    simp only [replaceAuxB, hpre, Bool.false_eq_true, if_false,
      replaceAuxB_nil_input]

theorem replaceAuxB_tok (n rep : List Char) (b : Nat) :
    replaceAuxB ('[' :: '[' :: (n ++ [']', ']'])) rep (b + 1)
      (('[' :: '[' :: (n ++ [']', ']'])) ++ ['\n']) = rep ++ ['\n'] := by
  have hpre : (('[' :: '[' :: (n ++ [']', ']'])).isPrefixOf
      ('[' :: '[' :: ((n ++ [']', ']']) ++ ['\n']))) = true := by
    have h := isPrefixOf_append_self ('[' :: '[' :: (n ++ [']', ']'])) ['\n']
    simp only [List.cons_append] at h
    exact h
  have hdrop : (('[' :: ((n ++ [']', ']']) ++ ['\n'])).drop
      (('[' :: '[' :: (n ++ [']', ']'])).length - 1)) = ['\n'] := by
    have hl : ('[' :: '[' :: (n ++ [']', ']'])).length - 1 =
        ('[' :: (n ++ [']', ']'])).length := by simp
    rw [hl, show ('[' :: ((n ++ [']', ']']) ++ ['\n'])) =
      ('[' :: (n ++ [']', ']'])) ++ ['\n'] from by simp, List.drop_left]
  simp only [List.cons_append]
  simp only [replaceAuxB, hpre, if_true]
  rw [hdrop, replaceAuxB_bracket_nl]

theorem pyReplace_token (n : List Char) (rep : String) :
    pyReplace (String.mk ('[' :: '[' :: (n ++ [']', ']', '\n'])))
      (String.mk ('[' :: '[' :: (n ++ [']', ']']))) rep = rep ++ "\n" := by
  unfold pyReplace
  have hdata : (String.mk ('[' :: '[' :: (n ++ [']', ']', '\n']))).data =
      ('[' :: '[' :: (n ++ [']', ']'])) ++ ['\n'] := by simp
  rw [hdata]
  have hlen : ((('[' :: '[' :: (n ++ [']', ']'])) ++ ['\n']).length + 1) =
      ((n.length + 5) + 1) := by simp [List.length_append]
  rw [hlen]
  have hrepl := replaceAuxB_tok n rep.data (n.length + 5)
  rw [hrepl]
  rfl

/-! ## Plain targets: no separator, no anchor, no alias -/

theorem splitCharAux_no_sep (sep : Char) :
    ∀ (l acc : List Char), (∀ c ∈ l, c ≠ sep) →
      splitCharAux sep l acc = [acc.reverse ++ l] := by
  intro l
  induction l with
  | nil => intro acc _; simp [splitCharAux]
  | cons c rest ih =>
    intro acc h
    have hc : c ≠ sep := h c (List.mem_cons_self c rest)
    rw [splitCharAux, if_neg hc, ih (c :: acc) (fun x hx => h x (List.mem_cons_of_mem c hx))]
    simp

theorem pySplit_no_sep (sep : Char) (s : String) (h : ∀ c ∈ s.data, c ≠ sep) :
    pySplit sep s = [s] := by
  unfold pySplit
  rw [splitCharAux_no_sep sep s.data [] h]
  rfl

theorem bareTarget_plain (s : String) (h2 : ∀ c ∈ s.data, c ≠ '#')
    (h3 : ∀ c ∈ s.data, c ≠ '|') : bareTarget s = s := by
  unfold bareTarget
  rw [pySplit_no_sep '#' s h2]
  simp only [List.headD_cons]
  rw [pySplit_no_sep '|' s h3]
  rfl

theorem anchorOf_plain (s : String) (h2 : ∀ c ∈ s.data, c ≠ '#') :
    anchorOf s = "" := by
  unfold anchorOf
  rw [pySplit_no_sep '#' s h2]

theorem replaceAuxB_no_char (p : Char) (rep : List Char) :
    ∀ (l : List Char) (b : Nat), (∀ c ∈ l, c ≠ p) →
      replaceAuxB [p] rep b l = l := by
  intro l
  induction l with
  | nil => intro b _; exact replaceAuxB_nil_input _ _ _
  | cons c rest ih =>
    intro b h
    cases b with
    | zero => rfl
    | succ b' =>
      have hc : c ≠ p := h c (List.mem_cons_self c rest)
      have hpre : ([p].isPrefixOf (c :: rest)) = false := by
        simp [List.isPrefixOf, beq_eq_false_iff_ne.mpr (Ne.symm hc)]
      simp only [replaceAuxB, hpre, Bool.false_eq_true, if_false]
      rw [ih b' (fun x hx => h x (List.mem_cons_of_mem c hx))]

theorem pyReplace_no_backslash (s : String) (h : ∀ c ∈ s.data, c ≠ '\\') :
    pyReplace s "\\" "/" = s := by
  unfold pyReplace
  rw [show ("\\" : String).data = ['\\'] from rfl]
  rw [replaceAuxB_no_char '\\' "/".data s.data (s.data.length + 1) h]

/-! ## The extension append and the resolution failure -/

theorem string_ne_empty_of_data {s : String} (h : s.data ≠ []) : (s == "") = false := by
  apply beq_eq_false_iff_ne.mpr
  intro he
  exact h (congrArg String.data he)

theorem mdTargetName_data (s : String) :
    (mdTargetName s).data = s.data ∨ (mdTargetName s).data = s.data ++ ['.', 'm', 'd'] := by
  unfold mdTargetName
  split
  · right
    rw [String.data_append]
  · left
    rfl

theorem mdTargetName_ne_empty (s : String) (h : s.data ≠ []) :
    (mdTargetName s == "") = false := by
  apply string_ne_empty_of_data
  rcases mdTargetName_data s with hd | hd <;> rw [hd]
  · exact h
  · simp

theorem mdTargetName_no_char (s : String) (p : Char) (hp : p ≠ '.' ∧ p ≠ 'm' ∧ p ≠ 'd')
    (h : ∀ c ∈ s.data, c ≠ p) : ∀ c ∈ (mdTargetName s).data, c ≠ p := by
  rcases mdTargetName_data s with hd | hd <;> rw [hd]
  · exact h
  · intro c hc
    rcases List.mem_append.mp hc with hm | hm
    · exact h c hm
    · intro he
      rw [he] at hm
      simp only [List.mem_cons, List.mem_singleton, List.not_mem_nil, or_false] at hm
      rcases hm with hx | hx | hx
      · exact hp.1 hx
      · exact hp.2.1 hx
      · exact hp.2.2 hx

theorem basename_vdir (t : String) (h : ∀ c ∈ t.data, c ≠ '/') :
    basename (joinPath "/v" t) = t := by
  have hj : joinPath "/v" t = String.mk ('/' :: 'v' :: '/' :: t.data) := rfl
  rw [hj]
  unfold basename pySplit
  rw [show (String.mk ('/' :: 'v' :: '/' :: t.data)).data =
    '/' :: 'v' :: '/' :: t.data from rfl]
  rw [splitCharAux, if_pos rfl, splitCharAux, if_neg (by decide), splitCharAux,
    if_pos rfl, splitCharAux_no_sep '/' t.data [] h]
  simp

theorem dropWhile_append_singleton (p : Char → Bool) :
    ∀ (m : List Char) (c : Char), p c = false →
      ∃ m', List.dropWhile p (m ++ [c]) = m' ++ [c] := by
  intro m
  induction m with
  | nil => intro c hc; exact ⟨[], by simp [List.dropWhile, hc]⟩
  | cons a m ih =>
    intro c hc
    by_cases ha : p a = true
    · obtain ⟨m', hm'⟩ := ih c hc
      exact ⟨m', by simp [List.dropWhile, ha, hm']⟩
    · exact ⟨a :: m, by simp [List.dropWhile, Bool.eq_false_iff.mpr ha]⟩

theorem pyStrip_ends_nonspace (m : List Char) (c : Char) (hc : isPySpace c = false) :
    (pyStrip (String.mk (m ++ [c])) == "") = false := by
  apply string_ne_empty_of_data
  unfold pyStrip
  rw [show (String.mk (m ++ [c])).data = m ++ [c] from rfl]
  obtain ⟨m', hm'⟩ := dropWhile_append_singleton isPySpace m c hc
  rw [hm']
  rw [show (m' ++ [c]).reverse = c :: m'.reverse from by simp]
  rw [show List.dropWhile isPySpace (c :: m'.reverse) = c :: m'.reverse from by
    simp [List.dropWhile, hc]]
  simp

theorem mdTargetName_ends_d (s : String) (h : s.data ≠ []) :
    ∃ m, (mdTargetName s).data = m ++ ['d'] := by
  unfold mdTargetName
  split
  · next hcond =>
    refine ⟨(s ++ ".md").data.dropLast, ?_⟩
    rw [String.data_append]
    rw [show (".md" : String).data = ['.', 'm', 'd'] from rfl]
    rw [show s.data ++ ['.', 'm', 'd'] = (s.data ++ ['.', 'm']) ++ ['d'] from by simp]
    rw [List.dropLast_concat]
  · next hcond =>
    rw [Bool.not_eq_true, Bool.and_eq_false_iff] at hcond
    rcases hcond with hcond | hcond
    · have hend : pyEndsWith s ".md" = true := by simpa using hcond
      have hsuf : ['.', 'm', 'd'] <:+ s.data := by
        rw [← List.isSuffixOf_iff_suffix]
        exact hend
      obtain ⟨pre, hpre⟩ := hsuf
      refine ⟨pre ++ ['.', 'm'], ?_⟩
      rw [← hpre]
      simp
    · exfalso
      rw [decide_eq_false_iff_not] at hcond
      exact h (congrArg String.data (not_not.mp hcond))

theorem mdTargetName_strip_ne (s : String) (h : s.data ≠ []) :
    (pyStrip (mdTargetName s) == "") = false := by
  obtain ⟨m, hm⟩ := mdTargetName_ends_d s h
  have h2 := pyStrip_ends_nonspace m 'd' (by decide)
  rw [← hm] at h2
  exact h2

/-! ## Capturing a single plain document link -/

theorem scanDoc_nil_tail : ∀ (b : Nat) (prev : Option Char),
    scanDocLinksB b prev ['\n'] = [] := by
  intro b prev
  match b with
  | 0 => rfl
  | 1 => rfl
  | b + 2 => rfl

theorem scanDoc_single (m : Nat) (n : List Char) (h : ']' ∉ n) :
    scanDocLinksB (m + 1) none ('[' :: '[' :: (n ++ [']', ']', '\n'])) = [n] := by
  have hcap : takeUntilDouble ']' (n ++ ']' :: ']' :: ['\n']) = some (n, ['\n']) := by
    apply takeUntilDouble_append
    intro c hc he
    exact h (he ▸ hc)
  rw [scanDocLinksB]
  simp only [List.cons_append] at hcap ⊢
  rw [if_neg (by decide), hcap]
  show n :: scanDocLinksB m (some ']') ['\n'] = [n]
  rw [scanDoc_nil_tail]

theorem extractDoc_single (n : List Char) (h : ']' ∉ n) :
    extractDocLinks (String.mk ('[' :: '[' :: (n ++ [']', ']', '\n']))) =
      [String.mk n] := by
  unfold extractDocLinks
  have hlen : (String.mk ('[' :: '[' :: (n ++ [']', ']', '\n']))).data.length + 1 =
      (n.length + 5) + 1 := by
    simp [List.length_append]
  rw [hlen, scanDoc_single _ n h]
  rfl

/-! ## Unresolvable targets -/

/-- When a target resolves nowhere, `copy_file_to_export` only records the
warning and returns `None` (lines 107-109 of `file_operations.py`). -/
theorem copy_notfound (recurse : Recurse) (fs : FS) (st : WState) (tr : Bool)
    (md : Option Int) (target : String) (hmd : budgetNeg md = false)
    (hstrip : (pyStrip target == "") = false)
    (hres : resolveFile fs (dirname "/v/cur.md") target = none) :
    copy_file_to_export recurse target "/v/cur.md" tr fs st md =
      some (none,
        { st with warns := st.warns ++
            ["Warning: Could not find linked file: " ++ target] }) := by
  unfold copy_file_to_export
  rw [hmd]
  simp only [Bool.false_eq_true, if_false]
  rw [hstrip]
  simp only [Bool.false_eq_true, if_false]
  rw [hres]

/-- For a separator- and backslash-free target, the fallback anchor of
line 176 of `file_operations.py` displays the target with every `.md`
substring removed. -/
theorem fallback_plain (t : String) (hs : ∀ c ∈ t.data, c ≠ '/')
    (hb : ∀ c ∈ t.data, c ≠ '\\') :
    fallbackAnchorHtml t "" =
      "<a href=\"./" ++ t ++ ".md.html\">" ++ pyReplace t ".md" "" ++ "</a>" := by
  unfold fallbackAnchorHtml
  rw [pyReplace_no_backslash t hb, pySplit_no_sep '/' t hs]
  show "<a href=\"./" ++ t ++ ".md.html" ++ "" ++ "\">" ++
      pyReplace t ".md" "" ++ "" ++ "</a>" =
    "<a href=\"./" ++ t ++ ".md.html\">" ++ pyReplace t ".md" "" ++ "</a>"
  apply String.ext
  simp [String.data_append, List.append_assoc]

/-! ## The claims -/

/-- C1: the Expectation Counter and the Walker disagree: on a root whose only
link is an existing image, exported at budget 0, `count_expected_links`
returns 1 while the session registry (seeded with the root, as `run_export`
does) ends with 2 entries — `find_image_links` has no depth guard, but the
counter stops at `current_depth >= max_depth` before looking at image links.
This refutes the claimed equivalence (and the repository's own
`tests/test_file_counting.py` consistency assertion). -/
theorem claim_C1 :
    count_expected_links 10 fsImg "/v/root.md" [] 0 (some 0) =
      some (1, ["/v/root.md"]) ∧
    (run_export 10 fsImg "/v/root.md" false (some 0)).map (fun st => st.reg) =
      some ["/v/root.md", "/v/img.png"] ∧
    (1 : Nat) ≠ 2 :=
  ⟨rfl, rfl, by decide⟩

/-- C2: a registered document is re-processed for traversal.  With root
`/v/root.md` linking to itself and budget 2, the session (registry seeded with
the root) reads the root's lines twice — the trace records two reads — even
though the root was in the registry from the start; the "all but the last
entry" slice guard (line 91 of `file_operations.py`) is empty for a singleton
registry.  With an unbounded budget the same graph recurses forever: the run
returns `none` for every fuel. -/
theorem claim_C2 :
    run_export 10 fsSelf "/v/root.md" false (some 2) =
      some ⟨["/v/root.md"], ["/v/root.md", "/v/root.md"], []⟩ ∧
    (∀ (fuel : Nat) (tr w : List String),
      read_files_recursive fuel fsSelf "/v/root.md" none false
        ⟨["/v/root.md"], tr, w⟩ = none) :=
  ⟨rfl, selfDiverges⟩

/-- C3: the rendering pass destroys code fences.  `convert_inline_code` runs
before `convert_code_block` (lines 328-331 of `file_operations.py`) and its
empty-capture match rewrites the `` ``` `` marker to `<code></code>` followed
by a stray backtick, so the block state never activates: a two-fence document
emits two opening and two closing code elements (one pair per mangled fence
line) and the line between them is bold-converted instead of HTML-escaped
verbatim. -/
theorem claim_C3 :
    process_file_to_html (fun p md st => read_files_recursive 5 fsCode p md false st)
      "/v/doc.md" codeLines fsCode ⟨["/v/doc.md"], [], []⟩ none =
      some (["<code></code>`\n", "<strong>bold</strong>\n", "<code></code>`\n"],
        ⟨["/v/doc.md"], [], []⟩) ∧
    countSub (String.join
      ["<code></code>`\n", "<strong>bold</strong>\n", "<code></code>`\n"]) "<code>" = 2 ∧
    countSub (String.join
      ["<code></code>`\n", "<strong>bold</strong>\n", "<code></code>`\n"]) "</code>" = 2 ∧
    "<strong>bold</strong>\n" ≠ escapeHtml "**bold**\n" :=
  ⟨rfl, rfl, rfl, by decide⟩

/-- C4 (counterexample): at budget exactly 0 the Walker does **not** perform
the per-link resolution work for document links: with `main.md` holding one
resolvable link `[[a]]`, the budget-0 session registry stays `{main.md}` —
`a.md` is neither resolved nor registered, because `find_markdown_links`
returns the line untouched whenever the bounded budget is `<= 0`. -/
theorem claim_C4_counterexample :
    run_export 10 fsOneLink "/v/main.md" false (some 0) =
      some ⟨["/v/main.md"], ["/v/main.md"], []⟩ ∧
    "/v/a.md" ∉ (["/v/main.md"] : List String) :=
  ⟨rfl, by decide⟩

/-- C4 (amended): at budget exactly 0 the Walker still copies and reads the
current document (the trace gains its path) and still processes image links,
but document links are skipped entirely — on a document without image links
the state is unchanged except for the read trace; image links are still
registered at budget 0 (second conjunct, `fsImg`); a negative budget truncates
before any work, state untouched. -/
theorem claim_C4 :
    (∀ (fs : FS) (root : String) (lines : List String) (st : WState) (fuel : Nat),
      fs.read root = some lines →
      (∀ l ∈ lines, extractImgLinks l = []) →
      read_files_recursive (fuel + 1) fs root (some 0) false st =
        some { st with trace := st.trace ++ [root] }) ∧
    run_export 10 fsImg "/v/root.md" false (some 0) =
      some ⟨["/v/root.md", "/v/img.png"], ["/v/root.md"], []⟩ ∧
    (∀ (fs : FS) (root : String) (st : WState) (d : Int) (fuel : Nat), d < 0 →
      read_files_recursive (fuel + 1) fs root (some d) false st = some st) := by
  refine ⟨?_, rfl, ?_⟩
  · intro fs root lines st fuel hread himg
    unfold read_files_recursive
    rw [show budgetNeg (some 0) = false from rfl]
    simp only [Bool.false_eq_true, if_false]
    rw [hread]
    simp only []
    rw [walkLines_budget0 _ lines root fs _ 0 himg]
  · intro fs root st d fuel h
    unfold read_files_recursive
    rw [show budgetNeg (some d) = (decide (d < 0)) from rfl]
    simp [h]

/-- C5: depth-0 and depth-1 scenarios.  For `main.md → linked.md → other.md`,
the budget-0 session registry is exactly `{main.md}` and the budget-1 session
registry exactly `{main.md, linked.md}`; `other.md` (a target of `linked.md`)
is not included. -/
theorem claim_C5 :
    run_export 10 fsDepth "/v/main.md" false (some 0) =
      some ⟨["/v/main.md"], ["/v/main.md"], []⟩ ∧
    run_export 10 fsDepth "/v/main.md" false (some 1) =
      some ⟨["/v/main.md", "/v/linked.md"], ["/v/main.md"], []⟩ ∧
    "/v/other.md" ∉ (["/v/main.md", "/v/linked.md"] : List String) :=
  ⟨rfl, rfl, by decide⟩

/-- C6: the registry never holds duplicates: every append in
`copy_file_to_export` is guarded by a membership test, so any completed
session (registry seeded with the root) ends with a duplicate-free registry,
for every graph, budget and rendering mode. -/
theorem claim_C6 (fuel : Nat) (fs : FS) (root : String) (html : Bool)
    (md : Option Int) (st' : WState)
    (h : run_export fuel fs root html md = some st') : st'.reg.Nodup := by
  unfold run_export at h
  exact read_preserves fuel fs root md html _ st' (by simp) h

/-- C7: depth monotonicity fails.  Over `fsMono` (`R → B1, C`; `B1 → B2`;
`B2 → C`; `C → E`; `E → F`), the budget-3 session registers `F.md` but the
budget-4 session does not: at budget 3 the root's second link `[[C]]` finds
`C.md` registered yet absent from the "all but last" slice, so `C` is
re-traversed from the root with more remaining depth than its first visit
had, reaching `E` and then `F`; at budget 4 `C` sits inside the slice and is
not re-traversed, and its first visit had too little depth left for `F`. -/
theorem claim_C7 :
    (run_export 20 fsMono "/v/R.md" false (some 3)).map (fun st => st.reg) =
      some ["/v/R.md", "/v/B1.md", "/v/B2.md", "/v/C.md", "/v/E.md", "/v/F.md"] ∧
    (run_export 20 fsMono "/v/R.md" false (some 4)).map (fun st => st.reg) =
      some ["/v/R.md", "/v/B1.md", "/v/B2.md", "/v/C.md", "/v/E.md"] ∧
    "/v/F.md" ∈ (["/v/R.md", "/v/B1.md", "/v/B2.md", "/v/C.md", "/v/E.md",
      "/v/F.md"] : List String) ∧
    "/v/F.md" ∉ (["/v/R.md", "/v/B1.md", "/v/B2.md", "/v/C.md", "/v/E.md"] :
      List String) :=
  ⟨rfl, rfl, by decide, by decide⟩

/-- C8 (counterexample): the display text of an unresolved link is **not**
always the literal target name: the unresolvable `[[note.md]]` (no `note.md`
exists anywhere under `fsCur`) is emitted with display text `note`, because
the fallback anchor of line 176 of `file_operations.py` strips every `.md`
occurrence from the target; `note` differs from the literal target
`note.md`. -/
theorem claim_C8_counterexample :
    find_markdown_links (fun p md st => read_files_recursive 5 fsCur p md false st)
      "[[note.md]]\n" "/v/cur.md" true fsCur st0 none =
      some ("<a href=\"./note.md.md.html\">note</a>\n",
        ⟨[], [], ["Warning: Could not find linked file: note.md"]⟩) ∧
    "note" ≠ "note.md" :=
  ⟨rfl, by decide⟩

/-- C8 (amended): for every document link whose bracketed token is a plain
target name (no `]`, no anchor `#` or alias `|` part, no path separator or
backslash) and whose target file exists nowhere in the search subtree, over
any filesystem and any state: `copy_file_to_export` emits the warning and
returns the not-found result instead of raising, the registry and the read
trace are untouched, the line pass continues normally, and in HTML mode the
link is emitted as an anchor whose display text is the target name — after
the conditional `.md` extension append — with every `.md` substring removed
(so an extensionless name is displayed literally, while `note.md` displays
`note`). -/
theorem claim_C8 (recurse : Recurse) (fs : FS) (st : WState) (n : List Char)
    (hn : n ≠ []) (hbr : ']' ∉ n) (hha : '#' ∉ n) (hpi : '|' ∉ n)
    (hsl : '/' ∉ n) (hbs : '\\' ∉ n)
    (hmiss : ∀ f ∈ fs.files, basename f.path ≠ mdTargetName (String.mk n)) :
    copy_file_to_export recurse (mdTargetName (String.mk n)) "/v/cur.md" true
        fs st none =
      some (none,
        { st with warns := st.warns ++
            ["Warning: Could not find linked file: " ++ mdTargetName (String.mk n)] }) ∧
    find_markdown_links recurse ("[[" ++ String.mk n ++ "]]" ++ "\n") "/v/cur.md"
        true fs st none =
      some ("<a href=\"./" ++ mdTargetName (String.mk n) ++ ".md.html\">" ++
          pyReplace (mdTargetName (String.mk n)) ".md" "" ++ "</a>" ++ "\n",
        { st with warns := st.warns ++
            ["Warning: Could not find linked file: " ++ mdTargetName (String.mk n)] }) := by
  have hnn : (String.mk n).data ≠ [] := hn
  have hsl' : ∀ c ∈ (String.mk n).data, c ≠ '/' := fun c hc he => hsl (he ▸ hc)
  have hbs' : ∀ c ∈ (String.mk n).data, c ≠ '\\' := fun c hc he => hbs (he ▸ hc)
  have hha' : ∀ c ∈ (String.mk n).data, c ≠ '#' := fun c hc he => hha (he ▸ hc)
  have hpi' : ∀ c ∈ (String.mk n).data, c ≠ '|' := fun c hc he => hpi (he ▸ hc)
  have htsl : ∀ c ∈ (mdTargetName (String.mk n)).data, c ≠ '/' :=
    mdTargetName_no_char _ '/' (by decide) hsl'
  have htbs : ∀ c ∈ (mdTargetName (String.mk n)).data, c ≠ '\\' :=
    mdTargetName_no_char _ '\\' (by decide) hbs'
  have hstrip : (pyStrip (mdTargetName (String.mk n)) == "") = false :=
    mdTargetName_strip_ne _ hnn
  have hres : resolveFile fs (dirname "/v/cur.md") (mdTargetName (String.mk n)) =
      none := by
    rw [show dirname "/v/cur.md" = "/v" from rfl]
    exact resolveFile_eq_none hmiss (basename_vdir _ htsl)
  have hcopy := copy_notfound recurse fs st true none (mdTargetName (String.mk n))
    rfl hstrip hres
  refine ⟨hcopy, ?_⟩
  have hline : ("[[" ++ String.mk n ++ "]]" ++ "\n") =
      String.mk ('[' :: '[' :: (n ++ [']', ']', '\n'])) := by
    show String.mk ((('[' :: '[' :: n) ++ [']', ']']) ++ ['\n']) = _
    simp
  rw [hline]
  unfold find_markdown_links
  rw [show budgetNonpos none = false from rfl]
  simp only [Bool.false_eq_true, if_false]
  rw [extractDoc_single n hbr]
  have hbare : bareTarget (String.mk n) = String.mk n := bareTarget_plain _ hha' hpi'
  have hanch : anchorOf (String.mk n) = "" := anchorOf_plain _ hha'
  simp only [processDocLinks, hbare, hanch]
  rw [show (decide ((("" : String)) ≠ "") && (String.mk n == "")) = false from by simp]
  simp only [Bool.false_eq_true, if_false]
  rw [show (if (!pyEndsWith (String.mk n) ".md" && decide (String.mk n ≠ "")) = true
      then String.mk n ++ ".md" else String.mk n) = mdTargetName (String.mk n) from rfl]
  rw [mdTargetName_ne_empty (String.mk n) hnn]
  simp only [Bool.false_eq_true, if_false]
  rw [show shouldTraverseB none = true from rfl]
  rw [show ("[[" ++ String.mk n ++ "]]") =
      String.mk ('[' :: '[' :: (n ++ [']', ']'])) from by
    show String.mk (('[' :: '[' :: n) ++ [']', ']']) = _
    simp]
  rw [pyReplace_token n (fallbackAnchorHtml (mdTargetName (String.mk n)) "")]
  rw [fallback_plain _ htsl htbs]
  rw [hcopy]
  rfl

/-- C8 witness: the amended claim evaluated at the target `missing` over
`fsCur`. -/
theorem claim_C8_witness :
    (("missing".data ≠ []) ∧ (']' ∉ "missing".data) ∧
      (∀ f ∈ fsCur.files, basename f.path ≠ mdTargetName (String.mk "missing".data))) ∧
    find_markdown_links (fun p md st => read_files_recursive 5 fsCur p md false st)
      ("[[" ++ String.mk "missing".data ++ "]]" ++ "\n") "/v/cur.md" true fsCur st0 none =
      some ("<a href=\"./missing.md.md.html\">missing</a>\n",
        ⟨[], [], ["Warning: Could not find linked file: missing.md"]⟩) :=
  ⟨⟨by decide, by decide, by decide⟩,
    (claim_C8 (fun p md st => read_files_recursive 5 fsCur p md false st)
      fsCur st0 "missing".data (by decide) (by decide) (by decide) (by decide)
      (by decide) (by decide) (by decide)).2⟩

/-- C9 (counterexample): an image link with empty bare target and non-empty
anchor (`![[#sec]]`) is **not** substituted with the current document's name:
the `continue` guard (line 209 of `file_operations.py`) fires first, so even
in HTML mode the line is returned unchanged (no `<img>` rewrite), the image
count stays 0, nothing is resolved and no warning is recorded. -/
theorem claim_C9_counterexample :
    find_image_links (fun p md st => read_files_recursive 5 fsCur p md false st)
      "![[#sec]]\n" "/v/cur.md" true fsCur st0 = some ("![[#sec]]\n", 0, st0) ∧
    st0.warns = [] ∧
    pyContains "![[#sec]]\n" "<img" = false :=
  ⟨rfl, rfl, by decide⟩

/-- C9 (amended): for every image link whose bare target is empty after the
anchor split (token `#…` with no `]` in the anchor text), the image-link pass
skips the link entirely via the empty-target `continue`, before the
self-reference substitution (which is unreachable); the line, count and state
are returned unchanged — in particular the pass never crashes. -/
theorem claim_C9 (recurse : Recurse) (a : List Char) (cur : String) (html : Bool)
    (fs : FS) (st : WState) (h : ']' ∉ a) :
    find_image_links recurse
      (String.mk ('!' :: '[' :: '[' :: ('#' :: a ++ [']', ']', '\n'])))
      cur html fs st =
      some (String.mk ('!' :: '[' :: '[' :: ('#' :: a ++ [']', ']', '\n'])), 0, st) := by
  unfold find_image_links
  rw [extractImg_single a h]
  have hbt : bareTarget (String.mk ('#' :: a)) = "" := by
    simp [bareTarget, pySplit, splitCharAux]
  simp [processImgLinks, hbt]

/-- C10: whenever the bounded budget is `<= 0`, `find_markdown_links` is the
identity on the line and mutates nothing — for any recursive reference,
current file, filesystem, state and rendering flag, so in a budget-0 HTML
export `[[…]]` tokens are left as literal text. -/
theorem claim_C10 (recurse : Recurse) (line cur : String) (html : Bool)
    (fs : FS) (st : WState) (d : Int) (h : d ≤ 0) :
    find_markdown_links recurse line cur html fs st (some d) = some (line, st) :=
  find_md_nonpos recurse line cur html fs st d h

/-! ## Witnesses -/

/-- C4 witness: the amended claim evaluated at `fsCur`. -/
theorem claim_C4_witness :
    fsCur.read "/v/cur.md" = some ["x\n"] ∧
    read_files_recursive 3 fsCur "/v/cur.md" (some 0) false st0 =
      some ⟨[], ["/v/cur.md"], []⟩ ∧
    read_files_recursive 1 fsCur "/v/cur.md" (some (-1)) false st0 = some st0 :=
  ⟨rfl, claim_C4.1 fsCur "/v/cur.md" ["x\n"] st0 2 rfl (by decide),
    claim_C4.2.2 fsCur "/v/cur.md" st0 (-1) 0 (by decide)⟩

/-- C6 witness: the budget-1 session over `fsDepth` ends duplicate-free. -/
theorem claim_C6_witness :
    (⟨["/v/main.md", "/v/linked.md"], ["/v/main.md"], []⟩ : WState).reg.Nodup :=
  claim_C6 10 fsDepth "/v/main.md" false (some 1) _ rfl

/-- C9 witness: the amended claim evaluated at anchor `sec` over `fsCur`. -/
theorem claim_C9_witness :
    (']' ∉ (['s', 'e', 'c'] : List Char)) ∧
    find_image_links (fun p md st => read_files_recursive 5 fsCur p md false st)
      (String.mk ('!' :: '[' :: '[' :: ('#' :: ['s', 'e', 'c'] ++ [']', ']', '\n'])))
      "/v/cur.md" true fsCur st0 =
      some (String.mk
        ('!' :: '[' :: '[' :: ('#' :: ['s', 'e', 'c'] ++ [']', ']', '\n'])), 0, st0) :=
  ⟨by decide,
    claim_C9 (fun p md st => read_files_recursive 5 fsCur p md false st)
      ['s', 'e', 'c'] "/v/cur.md" true fsCur st0 (by decide)⟩

/-- C10 witness: the identity at budget 0 evaluated over `fsOneLink` in HTML
mode. -/
theorem claim_C10_witness :
    ((0 : Int) ≤ 0) ∧
    find_markdown_links (fun p md st => read_files_recursive 5 fsOneLink p md false st)
      "[[a]]\n" "/v/main.md" true fsOneLink st0 (some 0) = some ("[[a]]\n", st0) :=
  ⟨by decide,
    claim_C10 (fun p md st => read_files_recursive 5 fsOneLink p md false st)
      "[[a]]\n" "/v/main.md" true fsOneLink st0 0 (by decide)⟩

end ObsidianNotes
